import Mathlib

/-!
Verification of the TwitchQuestForge character / combat / merchant core.

Shallow embedding conventions:
* Go `int` fields are modelled as unbounded `Int` (the spec states integer
  arithmetic with no overflow protection needed at expected magnitudes).
* Go pointer-optional fields (`*int`, `*Item`, ...) are `Option _`.
* The `float64` uniform draw of the combat engine is modelled as an explicit
  rational input `r`, and the win-chance ratio is computed in `ℚ`.
* `CreatedAt`/`UpdatedAt` timestamps and the derived `CombatPower` struct field
  (documented in the source as "calculated fields, not stored in DB") are not
  part of the persisted-character model; combat power is the function
  `Character.CalculateCombatPower`.
* Go maps are modelled as lists in insertion order (one admissible iteration
  order; Go map iteration order is unspecified).
* The in-memory backend's `combatLogs` slice is modelled with the most recent
  entry at the head of the list.
-/

/-! ### Data model, storage backend, services and auxiliary definitions -/

/-- Stats record (`models.Stats`): the four character statistics. -/
structure Stats where
  strength : Int
  agility : Int
  vitality : Int
  intelligence : Int
  deriving Repr, DecidableEq

/-- Equipment item (`models.Item`).  `itemType` is the Go `Type` string field
(one of "boots", "pants", "armor", "helmet", "ring", "chain"); `rarity` is the
Go `Rarity` string field. -/
structure Item where
  id : Int
  name : String
  itemType : String
  rarity : String
  strengthBonus : Int
  agilityBonus : Int
  vitalityBonus : Int
  intelligenceBonus : Int
  specialEffect : Option String
  value : Int
  isSpecial : Bool
  deriving Repr, DecidableEq

/-- Equipped-items aggregate (`models.Equipment`). -/
structure Equipment where
  boots : Option Item
  pants : Option Item
  armor : Option Item
  helmet : Option Item
  ring : Option Item
  chain : Option Item
  deriving Repr, DecidableEq

/-- Player character (`models.Character`), carrying the persisted fields and
the optional `Equipment` aggregate.  Timestamps and the derived
`CombatPower`/`TotalStats` fields are omitted (they are recomputed, never
persisted as domain state). -/
structure Character where
  id : Int
  username : String
  twitchUserId : Option String
  level : Int
  experience : Int
  channelPointsSpent : Int
  strength : Int
  agility : Int
  vitality : Int
  intelligence : Int
  bootsId : Option Int
  pantsId : Option Int
  armorId : Option Int
  helmetId : Option Int
  ringId : Option Int
  chainId : Option Int
  equipment : Option Equipment
  deriving Repr, DecidableEq

namespace Character

/-- `Character.CalculateBaseStats`: the character's base stats without
equipment. -/
def CalculateBaseStats (c : Character) : Stats :=
  { strength := c.strength
    agility := c.agility
    vitality := c.vitality
    intelligence := c.intelligence }

/-- Add one item's four bonuses onto a stats record (the body of each `if`
block of `CalculateTotalStats`). -/
def addItemBonus (s : Stats) (it : Item) : Stats :=
  { strength := s.strength + it.strengthBonus
    agility := s.agility + it.agilityBonus
    vitality := s.vitality + it.vitalityBonus
    intelligence := s.intelligence + it.intelligenceBonus }

/-- Fold an optional equipped item into the running stats (one `if x != nil`
step of `CalculateTotalStats`). -/
def addSlot (s : Stats) : Option Item → Stats
  | none => s
  | some it => addItemBonus s it

/-- `Character.CalculateTotalStats`: base stats plus the bonuses of each
populated equipment slot; base stats alone when `Equipment` is nil. -/
def CalculateTotalStats (c : Character) : Stats :=
  let baseStats := c.CalculateBaseStats
  match c.equipment with
  | none => baseStats
  | some e =>
      addSlot (addSlot (addSlot (addSlot (addSlot (addSlot baseStats
        e.boots) e.pants) e.armor) e.helmet) e.ring) e.chain

/-- `Character.CalculateCombatPower`: weighted sum of total stats plus a level
bonus. -/
def CalculateCombatPower (c : Character) : Int :=
  let totalStats := c.CalculateTotalStats
  (totalStats.strength * 3) +
    (totalStats.agility * 2) +
    (totalStats.vitality * 2) +
    (totalStats.intelligence * 1) +
    (c.level * 5)

/-- `Character.CanUpgradeStat`: positive point amount and a recognized stat
name. -/
def CanUpgradeStat (c : Character) (statType : String) (channelPoints : Int) : Bool :=
  channelPoints > 0 &&
    (statType == "strength" || statType == "agility" || statType == "vitality" ||
      statType == "intelligence")

/-- `Character.UpgradeStat`: spend channel points to raise one stat.  Returns
the updated character together with the Go method's boolean result (the Go
method mutates its receiver). -/
def UpgradeStat (c : Character) (statType : String) (channelPoints : Int) :
    Character × Bool :=
  if !(c.CanUpgradeStat statType channelPoints) then (c, false)
  else
    let pointsPerUpgrade : Int := 100
    let upgradeAmount := channelPoints.tdiv pointsPerUpgrade
    if upgradeAmount ≤ 0 then (c, false)
    else
      let c' :=
        match statType with
        | "strength" => some { c with strength := c.strength + upgradeAmount }
        | "agility" => some { c with agility := c.agility + upgradeAmount }
        | "vitality" => some { c with vitality := c.vitality + upgradeAmount }
        | "intelligence" => some { c with intelligence := c.intelligence + upgradeAmount }
        | _ => none
      match c' with
      | none => (c, false)
      | some c'' =>
          ({ c'' with channelPointsSpent := c''.channelPointsSpent + channelPoints }, true)

/-- `Character.GetNextLevelExperience`: experience needed for the next level,
`level * 1000`. -/
def GetNextLevelExperience (c : Character) : Int :=
  c.level * 1000

/-- One level-up step of `Character.AddExperience`: consume the threshold,
raise the level, and grant +1 to every base stat. -/
def levelUpOnce (c : Character) : Character :=
  { c with
    experience := c.experience - c.GetNextLevelExperience
    level := c.level + 1
    strength := c.strength + 1
    agility := c.agility + 1
    vitality := c.vitality + 1
    intelligence := c.intelligence + 1 }

/-- The `for c.Experience >= c.GetNextLevelExperience()` loop of
`Character.AddExperience`.  The boolean accumulates the `leveledUp` flag. -/
def addExperienceLoop (c : Character) (leveledUp : Bool) : Character × Bool :=
  if h : c.GetNextLevelExperience ≤ c.experience then
    addExperienceLoop c.levelUpOnce true
  else
    (c, leveledUp)
  termination_by ((1 - c.level).toNat, c.experience.toNat)
  decreasing_by
    simp only [GetNextLevelExperience] at h
    rcases le_or_lt c.level 0 with h0 | h1
    · exact Prod.Lex.left _ _ (by simp [levelUpOnce]; omega)
    · have he : (1 - (c.levelUpOnce).level).toNat = (1 - c.level).toNat := by
        simp [levelUpOnce]; omega
      have : ((1 - (c.levelUpOnce).level).toNat, (c.levelUpOnce).experience.toNat) =
          ((1 - c.level).toNat, (c.levelUpOnce).experience.toNat) := by rw [he]
      rw [this]
      exact Prod.Lex.right _ (by simp [levelUpOnce, GetNextLevelExperience]; omega)

/-- `Character.AddExperience`: add the amount, then normalize by the level-up
loop.  Returns the updated character and the `leveledUp` flag. -/
def AddExperience (c : Character) (exp : Int) : Character × Bool :=
  addExperienceLoop { c with experience := c.experience + exp } false

end Character

/-- The populated equipment slots, in slot order (spec side: "for each of the
six equipment slots that is populated"). -/
def Equipment.slotItems (e : Equipment) : List Item :=
  [e.boots, e.pants, e.armor, e.helmet, e.ring, e.chain].filterMap id

/-- Spec-side total stats: base stats plus the sum, over the populated slots,
of the item bonuses (base stats alone when no equipment is attached). -/
def specTotalStats (c : Character) : Stats :=
  let base := c.CalculateBaseStats
  match c.equipment with
  | none => base
  | some e =>
      { strength := base.strength + ((e.slotItems.map (·.strengthBonus)).sum)
        agility := base.agility + ((e.slotItems.map (·.agilityBonus)).sum)
        vitality := base.vitality + ((e.slotItems.map (·.vitalityBonus)).sum)
        intelligence := base.intelligence + ((e.slotItems.map (·.intelligenceBonus)).sum) }

/-- Spec-side result of a successful upgrade: exactly the named stat rises by
`⌊points/100⌋` and the spent-points counter accumulates the full tendered
amount; every other field is untouched. -/
def specUpgraded (c : Character) (statType : String) (points : Int) : Character :=
  let inc := points.fdiv 100
  match statType with
  | "strength" =>
      { c with strength := c.strength + inc,
               channelPointsSpent := c.channelPointsSpent + points }
  | "agility" =>
      { c with agility := c.agility + inc,
               channelPointsSpent := c.channelPointsSpent + points }
  | "vitality" =>
      { c with vitality := c.vitality + inc,
               channelPointsSpent := c.channelPointsSpent + points }
  | "intelligence" =>
      { c with intelligence := c.intelligence + inc,
               channelPointsSpent := c.channelPointsSpent + points }
  | _ => c

/-- The four recognized stat kinds. -/
def validStatType (statType : String) : Prop :=
  statType = "strength" ∨ statType = "agility" ∨ statType = "vitality" ∨
    statType = "intelligence"

instance (s : String) : Decidable (validStatType s) := by
  unfold validStatType; infer_instance

/-- A concrete character for witness instantiations: the state right after
creation (level 1, zero experience, all base stats 10). -/
def aliceW : Character :=
  { id := 1, username := "alice", twitchUserId := none, level := 1,
    experience := 0, channelPointsSpent := 0, strength := 10, agility := 10,
    vitality := 10, intelligence := 10, bootsId := none, pantsId := none,
    armorId := none, helmetId := none, ringId := none, chainId := none,
    equipment := none }

/-- Combat log record (`models.CombatLog`), without the timestamp. -/
structure CombatLog where
  id : Int
  attackerId : Int
  defenderId : Int
  winnerId : Int
  attackerPower : Int
  defenderPower : Int
  combatLogText : String
  deriving Repr, DecidableEq

/-- Combat result (`models.CombatResult`). -/
structure CombatResult where
  winner : Character
  loser : Character
  attackerPower : Int
  defenderPower : Int
  combatLogText : String
  experienceGained : Int
  rewardItems : List Item
  deriving Repr, DecidableEq

/-- Merchant event (`models.MerchantEvent`); times are abstract integer
instants (minutes), `availableItems` keeps the raw JSON text the code stores. -/
structure MerchantEvent where
  id : Int
  eventType : String
  availableItems : String
  startTime : Int
  endTime : Option Int
  isActive : Bool
  deriving Repr, DecidableEq

/-- The in-memory storage state (`storage.MemoryStorage`).  Go maps are
represented as lists in insertion order; `combatLogs` keeps the newest entry
first.  The game-event slice is not modelled (no claim touches it). -/
structure Storage where
  characters : List Character
  items : List Item
  combatLogs : List CombatLog
  merchants : List MerchantEvent
  activeMerchant : Option MerchantEvent
  inventories : List (Int × List Item)
  nextCharacterId : Int
  nextCombatLogId : Int
  nextMerchantId : Int
  deriving Repr, DecidableEq

namespace Storage

/-- `MemoryStorage.GetCharacterByID` (returns a copy; the derived
combat-power field is not part of the persisted model). -/
def GetCharacterByID (s : Storage) (id : Int) : Option Character :=
  s.characters.find? (fun c => c.id == id)

/-- `MemoryStorage.GetCharacterByUsername`. -/
def GetCharacterByUsername (s : Storage) (username : String) : Option Character :=
  s.characters.find? (fun c => c.username == username)

/-- `MemoryStorage.CreateCharacter`: reject duplicate usernames, otherwise
install a fresh level-1 character with all base stats 10 under the next id. -/
def CreateCharacter (s : Storage) (username : String) (twitchUserId : Option String) :
    Except String Character × Storage :=
  if s.characters.any (fun c => c.username == username) then
    (.error ("character with username '" ++ username ++ "' already exists"), s)
  else
    let char : Character :=
      { id := s.nextCharacterId, username := username, twitchUserId := twitchUserId,
        level := 1, experience := 0, channelPointsSpent := 0,
        strength := 10, agility := 10, vitality := 10, intelligence := 10,
        bootsId := none, pantsId := none, armorId := none, helmetId := none,
        ringId := none, chainId := none, equipment := none }
    (.ok char,
      { s with characters := s.characters ++ [char],
               nextCharacterId := s.nextCharacterId + 1 })

/-- The map assignment `ms.characters[char.ID] = char`: replace the record
keyed by `char.id`. -/
def replaceCharacter (s : Storage) (char : Character) : Storage :=
  { s with characters := s.characters.map (fun c => if c.id == char.id then char else c) }

/-- `MemoryStorage.UpdateCharacter`: replace the stored record with the given
one (keyed by its id); error when the id is unknown. -/
def UpdateCharacter (s : Storage) (char : Character) : Except String Storage :=
  if s.characters.any (fun c => c.id == char.id) then
    .ok (s.replaceCharacter char)
  else
    .error "character not found"

/-- `MemoryStorage.GetAllCharacters`: iterate the character map and return
copies (no sorting; map order is modelled as insertion order). -/
def GetAllCharacters (s : Storage) : List Character :=
  s.characters

/-- `MemoryStorage.GetItemByID`. -/
def GetItemByID (s : Storage) (id : Int) : Option Item :=
  s.items.find? (fun it => it.id == id)

/-- `MemoryStorage.AddCombatLog`: stamp the next log id and append (newest
first in this representation). -/
def AddCombatLog (s : Storage) (log : CombatLog) : Storage :=
  { s with combatLogs := { log with id := s.nextCombatLogId } :: s.combatLogs,
           nextCombatLogId := s.nextCombatLogId + 1 }

/-- `MemoryStorage.CreateMerchant`: deactivate the object the active-merchant
pointer refers to (unobservable here: the `merchants` slice stores value
copies and the pointer is immediately overwritten), then install the new
active event and append a copy of it to the merchants history. -/
def CreateMerchant (s : Storage) (eventType : String) (now durationMinutes : Int) :
    MerchantEvent × Storage :=
  let merchant : MerchantEvent :=
    { id := s.nextMerchantId, eventType := eventType, availableItems := "[1,2,3]",
      startTime := now, endTime := some (now + durationMinutes), isActive := true }
  (merchant,
    { s with activeMerchant := some merchant,
             merchants := s.merchants ++ [merchant],
             nextMerchantId := s.nextMerchantId + 1 })

/-- `MemoryStorage.GetCurrentMerchant`: return the active event while it has
not expired; clear it on read once past its end time. -/
def GetCurrentMerchant (s : Storage) (now : Int) : Option MerchantEvent × Storage :=
  match s.activeMerchant with
  | some m =>
      if m.isActive then
        match m.endTime with
        | none => (some m, s)
        | some t => if now < t then (some m, s) else (none, { s with activeMerchant := none })
      else (none, s)
  | none => (none, s)

/-- `MemoryStorage.PurchaseItem`: look up character and item, book the price
on the character's spent-points counter and append the item to the
character's inventory.  (No stock bookkeeping exists in this backend.) -/
def PurchaseItem (s : Storage) (characterId itemId price : Int) :
    Except String Unit × Storage :=
  match s.GetCharacterByID characterId with
  | none => (.error "character not found", s)
  | some char =>
      match s.GetItemByID itemId with
      | none => (.error "item not found", s)
      | some item =>
          let char' := { char with channelPointsSpent := char.channelPointsSpent + price }
          let inv := (s.inventories.lookup characterId).getD []
          (.ok (),
            { s with
              characters := s.characters.map (fun c => if c.id == characterId then char' else c),
              inventories :=
                (characterId, inv ++ [item]) ::
                  s.inventories.filter (fun p => !(p.1 == characterId)) })

/-- `MemoryStorage.GetCharacterInventory`. -/
def GetCharacterInventory (s : Storage) (characterId : Int) : List Item :=
  (s.inventories.lookup characterId).getD []

end Storage

/-- The storage state at process start (`initializeSampleData`): the three
sample items, no characters, no merchants. -/
def initialStorage : Storage :=
  { characters := []
    items :=
      [ { id := 1, name := "Iron Boots", itemType := "boots", rarity := "common",
          strengthBonus := 2, agilityBonus := 1, vitalityBonus := 1,
          intelligenceBonus := 0, specialEffect := none, value := 50, isSpecial := false },
        { id := 2, name := "Mystic Sword", itemType := "ring", rarity := "rare",
          strengthBonus := 5, agilityBonus := 3, vitalityBonus := 2,
          intelligenceBonus := 4, specialEffect := some "Increases magic damage",
          value := 200, isSpecial := true },
        { id := 3, name := "Leather Pants", itemType := "pants", rarity := "common",
          strengthBonus := 1, agilityBonus := 3, vitalityBonus := 2,
          intelligenceBonus := 0, specialEffect := none, value := 40, isSpecial := false } ]
    combatLogs := []
    merchants := []
    activeMerchant := none
    inventories := []
    nextCharacterId := 1
    nextCombatLogId := 1
    nextMerchantId := 1 }

/-- `experienceGained := 50 + (loser.Level * 10)` of
`CombatService.startCombatMemory`. -/
def combatExperienceGained (loser : Character) : Int :=
  50 + loser.level * 10

/-- The winner update of `CombatService.startCombatMemory`: add the
experience reward, then the single (branch-once) level-up check against
`winner.Level * 100`. -/
def applyExperienceReward (winner loser : Character) : Character :=
  let w1 := { winner with experience := winner.experience + combatExperienceGained loser }
  let expForNextLevel := w1.level * 100
  if expForNextLevel ≤ w1.experience then
    { w1 with level := w1.level + 1, experience := w1.experience - expForNextLevel }
  else w1

/-- `CombatService.startCombatMemory`, with the `rand.Float64()` draw taken as
the explicit rational input `randomRoll` and the `float64` chance ratio
computed in `ℚ`.  Returns the Go function's result and the storage state after
the call (unchanged on every error return).  The winner/loser selection `if
randomRoll > attackerChance { winner = defender; loser = attacker }` is
written as two `if` terms over the same condition. -/
def startCombatMemory (s : Storage) (attackerId defenderId : Int) (randomRoll : ℚ) :
    Except String CombatResult × Storage :=
  match s.GetCharacterByID attackerId with
  | none => (.error "attacker not found", s)
  | some attacker =>
      match s.GetCharacterByID defenderId with
      | none => (.error "defender not found", s)
      | some defender =>
          let attackerPower := attacker.CalculateCombatPower
          let defenderPower := defender.CalculateCombatPower
          let attackerChance : ℚ := Rat.divInt attackerPower (attackerPower + defenderPower)
          let winner0 := if attackerChance < randomRoll then defender else attacker
          let loser := if attackerChance < randomRoll then attacker else defender
          let experienceGained := combatExperienceGained loser
          let winner := applyExperienceReward winner0 loser
          match s.UpdateCharacter winner with
          | .error e => (.error ("failed to update winner: " ++ e), s)
          | .ok s1 =>
              let text := winner.username ++ " defeated " ++ loser.username ++
                "! Experience gained: " ++ toString experienceGained
              let s2 := s1.AddCombatLog
                { id := 0, attackerId := attackerId, defenderId := defenderId,
                  winnerId := winner.id, attackerPower := attackerPower,
                  defenderPower := defenderPower, combatLogText := text }
              (.ok { winner := winner, loser := loser, attackerPower := attackerPower,
                     defenderPower := defenderPower, combatLogText := text,
                     experienceGained := experienceGained, rewardItems := [] }, s2)

/-- `CharacterService.UpgradeCharacterStat` over the memory backend: load a
copy, run the pure `UpgradeStat`, persist, reload. -/
def UpgradeCharacterStat (s : Storage) (characterId : Int) (statType : String)
    (channelPoints : Int) : Except String Character × Storage :=
  match s.GetCharacterByID characterId with
  | none => (.error "character not found", s)
  | some c =>
      let (c', ok) := c.UpgradeStat statType channelPoints
      if ok then
        match s.UpdateCharacter c' with
        | .error e => (.error e, s)
        | .ok s' =>
            match s'.GetCharacterByID characterId with
            | some c2 => (.ok c2, s')
            | none => (.error "character not found", s')
      else (.error "invalid stat upgrade parameters", s)

/-- Set the slot matching the item's type (`switch item.Type` of
`CharacterService.EquipItem`); `none` for an unknown item type. -/
def equipSlot (c : Character) (item : Item) : Option Character :=
  match item.itemType with
  | "boots" => some { c with bootsId := some item.id }
  | "pants" => some { c with pantsId := some item.id }
  | "armor" => some { c with armorId := some item.id }
  | "helmet" => some { c with helmetId := some item.id }
  | "ring" => some { c with ringId := some item.id }
  | "chain" => some { c with chainId := some item.id }
  | _ => none

/-- `CharacterService.EquipItem` over the memory backend (the ownership check
of `ItemService.CharacterOwnsItem` returns true unconditionally in memory
mode). -/
def EquipItem (s : Storage) (characterId itemId : Int) : Except String Unit × Storage :=
  match s.GetItemByID itemId with
  | none => (.error "item not found", s)
  | some item =>
      match s.GetCharacterByID characterId with
      | none => (.error "character not found", s)
      | some c =>
          match equipSlot c item with
          | none => (.error "invalid item type", s)
          | some c' =>
              match s.UpdateCharacter c' with
              | .error e => (.error e, s)
              | .ok s' => (.ok (), s')

/-- Clear the slot named by `slotType` (`switch slotType` of
`CharacterService.UnequipItem`); `none` for an unknown slot type. -/
def unequipSlot (c : Character) (slotType : String) : Option Character :=
  match slotType with
  | "boots" => some { c with bootsId := none }
  | "pants" => some { c with pantsId := none }
  | "armor" => some { c with armorId := none }
  | "helmet" => some { c with helmetId := none }
  | "ring" => some { c with ringId := none }
  | "chain" => some { c with chainId := none }
  | _ => none

/-- `CharacterService.UnequipItem` over the memory backend. -/
def UnequipItem (s : Storage) (characterId : Int) (slotType : String) :
    Except String Unit × Storage :=
  match s.GetCharacterByID characterId with
  | none => (.error "character not found", s)
  | some c =>
      match unequipSlot c slotType with
      | none => (.error "invalid slot type", s)
      | some c' =>
          match s.UpdateCharacter c' with
          | .error e => (.error e, s)
          | .ok s' => (.ok (), s')

/-- `MerchantService.PurchaseItem` in memory mode: the line-item id is used
directly as the item id with a fixed price of 100 channel points; no stock
check of any kind is performed. -/
def PurchaseItemService (s : Storage) (characterId merchantEventItemId : Int) :
    Except String Unit × Storage :=
  s.PurchaseItem characterId merchantEventItemId 100

/-- States reachable from process start through the defined operations:
character creation, stat upgrade, equip/unequip, and combat resolution (with
an arbitrary uniform draw). -/
inductive Reach : Storage → Prop where
  | init : Reach initialStorage
  | create (s : Storage) (u : String) (tid : Option String) :
      Reach s → Reach (Storage.CreateCharacter s u tid).2
  | upgrade (s : Storage) (cid : Int) (st : String) (pts : Int) :
      Reach s → Reach (UpgradeCharacterStat s cid st pts).2
  | equip (s : Storage) (cid iid : Int) :
      Reach s → Reach (EquipItem s cid iid).2
  | unequip (s : Storage) (cid : Int) (slt : String) :
      Reach s → Reach (UnequipItem s cid slt).2
  | combat (s : Storage) (aid did : Int) (r : ℚ) :
      Reach s → Reach (startCombatMemory s aid did r).2

/-- A freshly created character after some combats: all base stats still 10,
no equipment, no spent points (combat in the memory flow touches only
experience and level). -/
def mkChar (id : Int) (u : String) (lv e : Int) : Character :=
  { id := id, username := u, twitchUserId := none, level := lv, experience := e,
    channelPointsSpent := 0, strength := 10, agility := 10, vitality := 10,
    intelligence := 10, bootsId := none, pantsId := none, armorId := none,
    helmetId := none, ringId := none, chainId := none, equipment := none }

/-- The state after creating `"alice"` (id 1) and `"bob"` (id 2). -/
def sClimbBase : Storage :=
  (Storage.CreateCharacter
    ((Storage.CreateCharacter initialStorage "alice" none).2) "bob" none).2

/-- Climb invariant: a reachable state whose character table holds exactly
alice at `(l1, e1)` and bob at level 1 with no experience, with the next
character id being 3. -/
def ClimbInv (s : Storage) (l1 e1 : Int) : Prop :=
  Reach s ∧
  s.characters = [mkChar 1 "alice" l1 e1, mkChar 2 "bob" 1 0] ∧
  s.nextCharacterId = 3

/-- One merchant event created on the initial storage. -/
def s8a : Storage := (Storage.CreateMerchant initialStorage "random_shop" 0 30).2

/-- A second merchant event created while the first is active. -/
def s8b : Storage := (Storage.CreateMerchant s8a "random_shop" 5 30).2

/-- The result record of the witness combat (alice beats bob at draw 0). -/
def resW : CombatResult :=
  { winner := applyExperienceReward (mkChar 1 "alice" 1 0) (mkChar 2 "bob" 1 0),
    loser := mkChar 2 "bob" 1 0,
    attackerPower := (mkChar 1 "alice" 1 0).CalculateCombatPower,
    defenderPower := (mkChar 2 "bob" 1 0).CalculateCombatPower,
    combatLogText :=
      (applyExperienceReward (mkChar 1 "alice" 1 0) (mkChar 2 "bob" 1 0)).username ++
        " defeated " ++ (mkChar 2 "bob" 1 0).username ++ "! Experience gained: " ++
        toString (combatExperienceGained (mkChar 2 "bob" 1 0)),
    experienceGained := combatExperienceGained (mkChar 2 "bob" 1 0),
    rewardItems := [] }

/-- The storage state after the witness combat. -/
def sW : Storage :=
  (sClimbBase.replaceCharacter
      (applyExperienceReward (mkChar 1 "alice" 1 0) (mkChar 2 "bob" 1 0))).AddCombatLog
    { id := 0, attackerId := 1, defenderId := 2,
      winnerId := (applyExperienceReward (mkChar 1 "alice" 1 0) (mkChar 2 "bob" 1 0)).id,
      attackerPower := (mkChar 1 "alice" 1 0).CalculateCombatPower,
      defenderPower := (mkChar 2 "bob" 1 0).CalculateCombatPower,
      combatLogText :=
        (applyExperienceReward (mkChar 1 "alice" 1 0) (mkChar 2 "bob" 1 0)).username ++
          " defeated " ++ (mkChar 2 "bob" 1 0).username ++ "! Experience gained: " ++
          toString (combatExperienceGained (mkChar 2 "bob" 1 0)) }

/-- State with only alice created, for the self-combat counterexample. -/
def sAW : Storage := (Storage.CreateCharacter initialStorage "alice" none).2

/-- A `merchant_event_items` row (line item) of the relational backend. -/
structure MerchantEventItemRow where
  id : Int
  itemId : Int
  priceChannelPoints : Int
  stock : Int
  purchased : Int
  deriving Repr, DecidableEq

/-- A `character_items` row (inventory edge) of the relational backend. -/
structure CharacterItemRow where
  characterId : Int
  itemId : Int
  quantity : Int
  deriving Repr, DecidableEq

/-- The relational tables touched by `MerchantService.PurchaseItem` (the SQL
statements of the Go source are modelled as operations on these tables). -/
structure DBState where
  characters : List Character
  merchantEventItems : List MerchantEventItemRow
  characterItems : List CharacterItemRow
  deriving Repr, DecidableEq

namespace DBState

/-- `SELECT ... FROM merchant_event_items WHERE id = ?`. -/
def getMerchantEventItem (db : DBState) (id : Int) : Option MerchantEventItemRow :=
  db.merchantEventItems.find? (fun q => q.id == id)

/-- `SELECT ... FROM characters WHERE id = ?`. -/
def getCharacter (db : DBState) (cid : Int) : Option Character :=
  db.characters.find? (fun c => c.id == cid)

/-- `ItemService.AddItemToCharacter`: bump the quantity of an existing
inventory row, or insert a fresh row with the given quantity. -/
def AddItemToCharacter (db : DBState) (cid iid qty : Int) : DBState :=
  if db.characterItems.any (fun q => q.characterId == cid && q.itemId == iid) then
    { db with
      characterItems := db.characterItems.map (fun q : CharacterItemRow =>
        if q.characterId == cid && q.itemId == iid then
          { q with quantity := q.quantity + qty }
        else q) }
  else
    { db with
      characterItems :=
        db.characterItems ++ [{ characterId := cid, itemId := iid, quantity := qty }] }

end DBState

/-- `MerchantService.PurchaseItem` (relational flow): load the line item,
reject when `purchased >= stock`, load the buyer, run the placeholder balance
check (`spent + price > spent + 1000`, i.e. it only rejects prices above
1000), then increment the purchased count, add the item to the buyer's
inventory and book the price on the buyer's spent-points counter. -/
def PurchaseItemDB (db : DBState) (characterId merchantEventItemId : Int) :
    Except String Unit × DBState :=
  match db.getMerchantEventItem merchantEventItemId with
  | none => (.error "failed to get merchant event item", db)
  | some row =>
      if row.stock ≤ row.purchased then (.error "item is out of stock", db)
      else
        match db.getCharacter characterId with
        | none => (.error "character not found", db)
        | some character =>
            if character.channelPointsSpent + row.priceChannelPoints >
                character.channelPointsSpent + 1000 then
              (.error "insufficient channel points", db)
            else
              let db1 := { db with
                merchantEventItems := db.merchantEventItems.map
                  (fun q : MerchantEventItemRow =>
                    if q.id == merchantEventItemId then
                      { q with purchased := q.purchased + 1 }
                    else q) }
              let db2 := db1.AddItemToCharacter characterId row.itemId 1
              let character' := { character with
                channelPointsSpent := character.channelPointsSpent + row.priceChannelPoints }
              let db3 := { db2 with
                characters := db2.characters.map (fun c : Character =>
                  if c.id == character'.id then character' else c) }
              (.ok (), db3)

/-- The purchased-count bump of `PurchaseItemDB`, as a named map step. -/
def bumpPurchased (q : MerchantEventItemRow) : MerchantEventItemRow :=
  { q with purchased := q.purchased + 1 }

/-- A one-row database for the C9 witness: line item 1 with stock 2, one
already purchased, and one buyer. -/
def dbW : DBState :=
  { characters := [mkChar 1 "alice" 1 0]
    merchantEventItems :=
      [{ id := 1, itemId := 7, priceChannelPoints := 100, stock := 2, purchased := 1 }]
    characterItems := [] }

/-- State with alice created, for the memory purchase counterexample. -/
def s9 : Storage := (Storage.CreateCharacter initialStorage "alice" none).2

/-- Leaderboard order of the `ORDER BY level DESC, experience DESC` clause:
`a` may come before `b`. -/
def leaderboardLe (a b : Character) : Prop :=
  b.level < a.level ∨ (b.level = a.level ∧ b.experience ≤ a.experience)

instance : DecidableRel leaderboardLe := fun a b => by
  unfold leaderboardLe
  infer_instance

instance : IsTotal Character leaderboardLe :=
  ⟨fun a b => by unfold leaderboardLe; omega⟩

instance : IsTrans Character leaderboardLe :=
  ⟨fun a b c hab hbc => by
    unfold leaderboardLe at hab hbc ⊢
    omega⟩

/-- The columns scanned by `CharacterService.GetAllCharacters` (relational
flow): id, username, level, experience and the four stats — no equipment
columns and no equipment join. -/
def scanAllCharactersRow (c : Character) : Character :=
  { id := c.id, username := c.username, twitchUserId := none, level := c.level,
    experience := c.experience, channelPointsSpent := 0, strength := c.strength,
    agility := c.agility, vitality := c.vitality, intelligence := c.intelligence,
    bootsId := none, pantsId := none, armorId := none, helmetId := none,
    ringId := none, chainId := none, equipment := none }

/-- `CharacterService.GetAllCharacters` (relational flow): the scanned rows in
`ORDER BY level DESC, experience DESC` order (the `ORDER BY` is modelled as a
sort by the leaderboard order). -/
def GetAllCharactersDB (rows : List Character) : List Character :=
  List.insertionSort leaderboardLe (rows.map scanAllCharactersRow)

/-- The state after bob (attacker) defeats alice at draw 0: characters are
stored as `[alice (exp 0), bob (exp 60)]`. -/
def s10 : Storage := (startCombatMemory sClimbBase 2 1 0).2

/-! ### Theorems for the claims C1 - C10 -/

/-- C1.  For every character, `CalculateTotalStats` is the base stats plus the
bonuses of exactly the populated slots, and `CalculateCombatPower` is
`3×STR + 2×AGI + 2×VIT + 1×INT + 5×level` over those total stats. -/
theorem C1_combat_power_formula (c : Character) :
    c.CalculateTotalStats = specTotalStats c ∧
    c.CalculateCombatPower =
      3 * (specTotalStats c).strength + 2 * (specTotalStats c).agility +
        2 * (specTotalStats c).vitality + 1 * (specTotalStats c).intelligence +
        5 * c.level := by
  have htot : c.CalculateTotalStats = specTotalStats c := by
    rcases c with ⟨_, _, _, _, _, _, _, _, _, _, _, _, _, _, _, _, eq⟩
    rcases eq with _ | ⟨b, p, a, h, r, ch⟩
    · rfl
    · rcases b with _ | b <;> rcases p with _ | p <;> rcases a with _ | a <;>
        rcases h with _ | h <;> rcases r with _ | r <;> rcases ch with _ | ch <;>
        simp [Character.CalculateTotalStats, specTotalStats, Equipment.slotItems,
          Character.addSlot, Character.addItemBonus, Character.CalculateBaseStats,
          Stats.mk.injEq] <;> omega
  refine ⟨htot, ?_⟩
  rw [Character.CalculateCombatPower, htot]
  ring

/-- C2.  `UpgradeStat` succeeds exactly when the stat kind is recognized and
`⌊points/100⌋ ≥ 1`; on success it raises that stat by `⌊points/100⌋`, adds the
full tendered amount to the spent-points counter and changes nothing else; on
any other input it reports failure and leaves the character unchanged. -/
theorem C2_upgrade_stat (c : Character) (statType : String) (points : Int) :
    (validStatType statType → 1 ≤ points.fdiv 100 →
      c.UpgradeStat statType points = (specUpgraded c statType points, true)) ∧
    (¬ (validStatType statType ∧ 1 ≤ points.fdiv 100) →
      c.UpgradeStat statType points = (c, false)) := by
  have hfd : points.fdiv 100 = points / 100 := Int.fdiv_eq_ediv points (by norm_num)
  constructor
  · intro hval hge
    have hp : 100 ≤ points := by rw [hfd] at hge; omega
    have htd : points.tdiv 100 = points / 100 :=
      Int.tdiv_eq_ediv (by omega) (by norm_num)
    have hgt : ¬ points.tdiv 100 ≤ 0 := by rw [htd]; omega
    rcases hval with h | h | h | h <;> subst h <;>
      simp [Character.UpgradeStat, Character.CanUpgradeStat, specUpgraded,
        show (0 : Int) < points by omega, hgt, htd, hfd] <;> omega
  · intro hnot
    by_cases hval : validStatType statType
    · have hlt : points.fdiv 100 < 1 := by
        by_contra hge
        exact hnot ⟨hval, by omega⟩
      by_cases hpos : 0 < points
      · have htd : points.tdiv 100 = points / 100 :=
          Int.tdiv_eq_ediv (by omega) (by norm_num)
        have hle : points.tdiv 100 ≤ 0 := by rw [htd]; rw [hfd] at hlt; omega
        rcases hval with h | h | h | h <;> subst h <;>
          simp [Character.UpgradeStat, Character.CanUpgradeStat, hpos, hle]
      · have : ¬ ((0 : Int) < points) := hpos
        rcases hval with h | h | h | h <;> subst h <;>
          simp [Character.UpgradeStat, Character.CanUpgradeStat, this]
    · have h1 : (statType == "strength") = false := by
        simp only [beq_eq_false_iff_ne]; intro h; exact hval (Or.inl h)
      have h2 : (statType == "agility") = false := by
        simp only [beq_eq_false_iff_ne]; intro h; exact hval (Or.inr (Or.inl h))
      have h3 : (statType == "vitality") = false := by
        simp only [beq_eq_false_iff_ne]; intro h; exact hval (Or.inr (Or.inr (Or.inl h)))
      have h4 : (statType == "intelligence") = false := by
        simp only [beq_eq_false_iff_ne]; intro h;
        exact hval (Or.inr (Or.inr (Or.inr h)))
      simp [Character.UpgradeStat, Character.CanUpgradeStat, h1, h2, h3, h4]

/-- Witness for C2: upgrading strength with 250 points raises strength by 2
and books the full 250 points; upgrading with 50 points fails and changes
nothing. -/
theorem C2_upgrade_stat_witness :
    aliceW.UpgradeStat "strength" 250 =
      ({ aliceW with strength := 12, channelPointsSpent := 250 }, true) ∧
    aliceW.UpgradeStat "strength" 50 = (aliceW, false) := by
  constructor
  · have h := (C2_upgrade_stat aliceW "strength" 250).1 (Or.inl rfl) (by decide)
    rw [h]; rfl
  · exact (C2_upgrade_stat aliceW "strength" 50).2 (by intro h; exact absurd h.2 (by decide))

/-- C3.  `AddExperience` adds the amount and then loops: as long as
`experience ≥ level × 1000` it consumes the threshold, raises the level and
grants +1 to every base stat.  In particular a level-1 character (with
normalized experience) granted `required(1) + required(2) = 1000 + 2000 = 3000`
experience in one call reaches level 3 with all four stats up by exactly 2 and
its original experience remainder. -/
theorem C3_add_experience (c : Character) (amount : Int) :
    (c.AddExperience amount =
      Character.addExperienceLoop { c with experience := c.experience + amount } false) ∧
    (∀ (d : Character) (lev : Bool), d.GetNextLevelExperience ≤ d.experience →
      Character.addExperienceLoop d lev = Character.addExperienceLoop d.levelUpOnce true) ∧
    (c.level = 1 → 0 ≤ c.experience → c.experience < 1000 →
      c.AddExperience 3000 =
        ({ c with level := 3, strength := c.strength + 2, agility := c.agility + 2,
                  vitality := c.vitality + 2, intelligence := c.intelligence + 2 }, true)) := by
  refine ⟨rfl, ?_, ?_⟩
  · intro d lev hd
    rw [Character.addExperienceLoop]
    simp [hd]
  · intro hl he0 he1
    rw [Character.AddExperience]
    rw [Character.addExperienceLoop]
    rw [dif_pos (by simp [Character.GetNextLevelExperience, hl]; omega)]
    rw [Character.addExperienceLoop]
    rw [dif_pos (by simp [Character.levelUpOnce, Character.GetNextLevelExperience, hl]; omega)]
    rw [Character.addExperienceLoop]
    rw [dif_neg (by simp [Character.levelUpOnce, Character.GetNextLevelExperience, hl]; omega)]
    simp only [Character.levelUpOnce, Character.GetNextLevelExperience]
    congr 1
    rcases c with ⟨_, _, _, lv, ex, _, _, _, _, _, _, _, _, _, _, _, _⟩
    simp only at hl he0 he1
    subst hl
    simp only [Character.mk.injEq, and_true, true_and]
    omega

/-- A character found by id carries that id. -/
theorem getCharacterByID_id {s : Storage} {k : Int} {a : Character}
    (h : s.GetCharacterByID k = some a) : a.id = k := by
  simpa using List.find?_some h

/-- A character found by id is in the stored list. -/
theorem getCharacterByID_mem {s : Storage} {k : Int} {a : Character}
    (h : s.GetCharacterByID k = some a) : a ∈ s.characters :=
  List.mem_of_find?_eq_some h

/-- Replacing the record with id `w.id` does not affect lookups of other
ids. -/
theorem find?_map_update_ne (l : List Character) (w : Character) (k : Int)
    (hk : k ≠ w.id) :
    (l.map (fun c => if c.id == w.id then w else c)).find? (fun c => c.id == k) =
      l.find? (fun c => c.id == k) := by
  induction l with
  | nil => rfl
  | cons c l ih =>
      by_cases hcw : c.id = w.id
      · have h2 : ¬ ((c.id == k) = true) := by rw [beq_iff_eq]; omega
        have h3 : ¬ ((w.id == k) = true) := by rw [beq_iff_eq]; omega
        rw [List.map_cons, if_pos (beq_iff_eq.mpr hcw),
          List.find?_cons_of_neg (p := fun c : Character => c.id == k) _ h3,
          List.find?_cons_of_neg (p := fun c : Character => c.id == k) _ h2, ih]
      · have h1 : ¬ ((c.id == w.id) = true) := by rw [beq_iff_eq]; exact hcw
        rw [List.map_cons, if_neg h1]
        by_cases hck : c.id = k
        · rw [List.find?_cons_of_pos (p := fun c : Character => c.id == k) _ (beq_iff_eq.mpr hck),
            List.find?_cons_of_pos (p := fun c : Character => c.id == k) _ (beq_iff_eq.mpr hck)]
        · have h2 : ¬ ((c.id == k) = true) := by rw [beq_iff_eq]; exact hck
          rw [List.find?_cons_of_neg (p := fun c : Character => c.id == k) _ h2,
            List.find?_cons_of_neg (p := fun c : Character => c.id == k) _ h2, ih]

/-- After replacing the record with id `w.id` by `w`, looking up that id finds
`w` (provided the id was present). -/
theorem find?_map_update_self (l : List Character) (w w₀ : Character) (k : Int)
    (hwk : w.id = k)
    (h : l.find? (fun c => c.id == k) = some w₀) :
    (l.map (fun c => if c.id == w.id then w else c)).find? (fun c => c.id == k) =
      some w := by
  subst hwk
  induction l with
  | nil => simp at h
  | cons c l ih =>
      by_cases hcw : c.id = w.id
      · rw [List.map_cons, if_pos (beq_iff_eq.mpr hcw),
          List.find?_cons_of_pos (p := fun c : Character => c.id == w.id) _ (beq_iff_eq.mpr rfl)]
      · have h1 : ¬ ((c.id == w.id) = true) := by rw [beq_iff_eq]; exact hcw
        rw [List.find?_cons_of_neg (p := fun c : Character => c.id == w.id) _ h1] at h
        rw [List.map_cons, if_neg h1,
          List.find?_cons_of_neg (p := fun c : Character => c.id == w.id) _ h1, ih h]

/-- The integer-built chance ratio agrees with rational division (the
`float64` quotient of the source, modelled exactly). -/
theorem divInt_chance_eq (ap dp : Int) :
    Rat.divInt ap (ap + dp) = (ap : ℚ) / ((ap : ℚ) + (dp : ℚ)) := by
  rw [Rat.divInt_eq_div]
  push_cast
  ring

/-- The winner update preserves the character id. -/
theorem applyExperienceReward_id (w l : Character) :
    (applyExperienceReward w l).id = w.id := by
  rw [applyExperienceReward]
  dsimp only
  split <;> rfl

/-- C4.  With the uniform draw as explicit input `r`: the attacker wins iff
`r ≤ attackerPower / (attackerPower + defenderPower)` (otherwise the defender
wins), and the winner's experience reward is `50 + 10 × loser.level`.  The
positivity hypothesis reflects that the Go code computes the ratio in
`float64`, where it is well defined exactly when the power sum is nonzero
(both powers are positive for every actually created character). -/
theorem C4_combat_winner_rule (s : Storage) (aid did : Int) (r : ℚ)
    (a d : Character)
    (hA : s.GetCharacterByID aid = some a) (hD : s.GetCharacterByID did = some d)
    (hne : aid ≠ did)
    (hposFloat : 0 < a.CalculateCombatPower + d.CalculateCombatPower) :
    ∃ res s', startCombatMemory s aid did r = (.ok res, s') ∧
      (r ≤ (a.CalculateCombatPower : ℚ) /
          ((a.CalculateCombatPower : ℚ) + (d.CalculateCombatPower : ℚ)) →
        res.winner.id = aid ∧ res.loser.id = did ∧
        res.experienceGained = 50 + 10 * d.level) ∧
      ((a.CalculateCombatPower : ℚ) /
          ((a.CalculateCombatPower : ℚ) + (d.CalculateCombatPower : ℚ)) < r →
        res.winner.id = did ∧ res.loser.id = aid ∧
        res.experienceGained = 50 + 10 * a.level) := by
  have haid : a.id = aid := getCharacterByID_id hA
  have hdid : d.id = did := getCharacterByID_id hD
  simp only [startCombatMemory, hA, hD, divInt_chance_eq]
  by_cases hc : (a.CalculateCombatPower : ℚ) /
      ((a.CalculateCombatPower : ℚ) + (d.CalculateCombatPower : ℚ)) < r
  · simp only [if_pos hc]
    have hany : (s.characters.any fun c => c.id == (applyExperienceReward d a).id) = true :=
      List.any_eq_true.mpr
        ⟨d, getCharacterByID_mem hD, beq_iff_eq.mpr (by rw [applyExperienceReward_id])⟩
    have hupd : s.UpdateCharacter (applyExperienceReward d a) =
        .ok (s.replaceCharacter (applyExperienceReward d a)) := by
      rw [Storage.UpdateCharacter, if_pos hany]
    rw [hupd]
    refine ⟨_, _, rfl, fun hle => absurd hc (not_lt.mpr hle), fun _ => ⟨?_, ?_, ?_⟩⟩
    · rw [applyExperienceReward_id]; exact hdid
    · exact haid
    · rw [combatExperienceGained]; ring
  · simp only [if_neg hc]
    have hany : (s.characters.any fun c => c.id == (applyExperienceReward a d).id) = true :=
      List.any_eq_true.mpr
        ⟨a, getCharacterByID_mem hA, beq_iff_eq.mpr (by rw [applyExperienceReward_id])⟩
    have hupd : s.UpdateCharacter (applyExperienceReward a d) =
        .ok (s.replaceCharacter (applyExperienceReward a d)) := by
      rw [Storage.UpdateCharacter, if_pos hany]
    rw [hupd]
    refine ⟨_, _, rfl, fun _ => ⟨?_, ?_, ?_⟩, fun hlt => absurd hlt hc⟩
    · rw [applyExperienceReward_id]; exact haid
    · exact hdid
    · rw [combatExperienceGained]; ring

/-- The winner update only touches the experience and level fields. -/
theorem applyExperienceReward_shape (w l : Character) :
    ∃ e lv, applyExperienceReward w l = { w with experience := e, level := lv } := by
  rw [applyExperienceReward]
  dsimp only
  split
  · exact ⟨_, _, rfl⟩
  · exact ⟨_, _, rfl⟩

/-- C7.  When the attacker or the defender does not exist, combat reports an
error and the storage state is unchanged (no character mutated, no log
written). -/
theorem C7_combat_missing_participant (s : Storage) (aid did : Int) (r : ℚ)
    (h : s.GetCharacterByID aid = none ∨ s.GetCharacterByID did = none) :
    (∃ msg, (startCombatMemory s aid did r).1 = .error msg) ∧
    (startCombatMemory s aid did r).2 = s := by
  rcases h with h | h
  · simp only [startCombatMemory, h]
    exact ⟨⟨_, rfl⟩, trivial⟩
  · cases hA : s.GetCharacterByID aid with
    | none =>
        simp only [startCombatMemory, hA]
        exact ⟨⟨_, rfl⟩, trivial⟩
    | some a =>
        simp only [startCombatMemory, hA, h]
        exact ⟨⟨_, rfl⟩, trivial⟩

/-- Witness for C7: on the initial storage (no characters) a combat call
errors and leaves the state untouched. -/
theorem C7_combat_missing_participant_witness :
    (∃ msg, (startCombatMemory initialStorage 1 2 0).1 = .error msg) ∧
    (startCombatMemory initialStorage 1 2 0).2 = initialStorage :=
  C7_combat_missing_participant initialStorage 1 2 0 (Or.inl rfl)

/-- C6 (amended).  For a successful combat between two distinct participants:
every character record other than the winner's is unchanged (in particular the
loser's), the winner's record changes only in experience and level, exactly
one combat-log entry is appended, and no other storage component changes. -/
theorem C6_combat_frame (s : Storage) (aid did : Int) (r : ℚ) (res : CombatResult)
    (s' : Storage) (hne : aid ≠ did)
    (hok : startCombatMemory s aid did r = (.ok res, s')) :
    (∀ k, k ≠ res.winner.id → s'.GetCharacterByID k = s.GetCharacterByID k) ∧
    res.loser.id ≠ res.winner.id ∧
    (∃ w₀, s.GetCharacterByID res.winner.id = some w₀ ∧
      s'.GetCharacterByID res.winner.id =
        some { w₀ with experience := res.winner.experience,
                       level := res.winner.level }) ∧
    (∃ e, s'.combatLogs = e :: s.combatLogs) ∧
    s'.items = s.items ∧ s'.merchants = s.merchants ∧
    s'.activeMerchant = s.activeMerchant ∧ s'.inventories = s.inventories ∧
    s'.nextCharacterId = s.nextCharacterId := by
  cases hA : s.GetCharacterByID aid with
  | none => simp [startCombatMemory, hA] at hok
  | some a =>
  cases hD : s.GetCharacterByID did with
  | none => simp [startCombatMemory, hA, hD] at hok
  | some d =>
  have haid : a.id = aid := getCharacterByID_id hA
  have hdid : d.id = did := getCharacterByID_id hD
  simp only [startCombatMemory, hA, hD, divInt_chance_eq] at hok
  by_cases hc : (a.CalculateCombatPower : ℚ) /
      ((a.CalculateCombatPower : ℚ) + (d.CalculateCombatPower : ℚ)) < r
  · simp only [if_pos hc] at hok
    have hany : (s.characters.any fun c => c.id == (applyExperienceReward d a).id) = true :=
      List.any_eq_true.mpr
        ⟨d, getCharacterByID_mem hD, beq_iff_eq.mpr (by rw [applyExperienceReward_id])⟩
    rw [show s.UpdateCharacter (applyExperienceReward d a) =
        .ok (s.replaceCharacter (applyExperienceReward d a)) from by
      rw [Storage.UpdateCharacter, if_pos hany]] at hok
    obtain ⟨hres, hs'⟩ := Prod.mk.injEq .. ▸ hok
    have hres' : res = _ := (Except.ok.injEq _ _).mp hres.symm
    obtain ⟨e, lv, hshape⟩ := applyExperienceReward_shape d a
    subst hs'
    constructor
    · intro k hk
      have hwin : res.winner = applyExperienceReward d a := by rw [hres']
      rw [hwin, applyExperienceReward_id, hdid] at hk
      show (s.replaceCharacter (applyExperienceReward d a)).characters.find? _ =
        s.characters.find? _
      rw [Storage.replaceCharacter]
      exact find?_map_update_ne s.characters (applyExperienceReward d a) k
        (by rw [applyExperienceReward_id, hdid]; exact hk)
    constructor
    · rw [hres']
      show a.id ≠ (applyExperienceReward d a).id
      rw [applyExperienceReward_id]
      omega
    constructor
    · refine ⟨d, ?_, ?_⟩
      · rw [hres']
        show s.GetCharacterByID (applyExperienceReward d a).id = some d
        rw [applyExperienceReward_id, hdid]
        exact hD
      · rw [hres']
        show (s.replaceCharacter (applyExperienceReward d a)).characters.find? _ = _
        rw [Storage.replaceCharacter]
        have hfind := find?_map_update_self s.characters (applyExperienceReward d a) d
          (applyExperienceReward d a).id rfl
          (by rw [applyExperienceReward_id, hdid]; exact hD)
        rw [show (applyExperienceReward d a).id = did from by rw [applyExperienceReward_id, hdid]] at hfind ⊢
        rw [hfind, hshape]
    refine ⟨⟨_, rfl⟩, rfl, rfl, rfl, rfl, rfl⟩
  · simp only [if_neg hc] at hok
    have hany : (s.characters.any fun c => c.id == (applyExperienceReward a d).id) = true :=
      List.any_eq_true.mpr
        ⟨a, getCharacterByID_mem hA, beq_iff_eq.mpr (by rw [applyExperienceReward_id])⟩
    rw [show s.UpdateCharacter (applyExperienceReward a d) =
        .ok (s.replaceCharacter (applyExperienceReward a d)) from by
      rw [Storage.UpdateCharacter, if_pos hany]] at hok
    obtain ⟨hres, hs'⟩ := Prod.mk.injEq .. ▸ hok
    have hres' : res = _ := (Except.ok.injEq _ _).mp hres.symm
    obtain ⟨e, lv, hshape⟩ := applyExperienceReward_shape a d
    subst hs'
    constructor
    · intro k hk
      have hwin : res.winner = applyExperienceReward a d := by rw [hres']
      rw [hwin, applyExperienceReward_id, haid] at hk
      show (s.replaceCharacter (applyExperienceReward a d)).characters.find? _ =
        s.characters.find? _
      rw [Storage.replaceCharacter]
      exact find?_map_update_ne s.characters (applyExperienceReward a d) k
        (by rw [applyExperienceReward_id, haid]; exact hk)
    constructor
    · rw [hres']
      show d.id ≠ (applyExperienceReward a d).id
      rw [applyExperienceReward_id]
      omega
    constructor
    · refine ⟨a, ?_, ?_⟩
      · rw [hres']
        show s.GetCharacterByID (applyExperienceReward a d).id = some a
        rw [applyExperienceReward_id, haid]
        exact hA
      · rw [hres']
        show (s.replaceCharacter (applyExperienceReward a d)).characters.find? _ = _
        rw [Storage.replaceCharacter]
        have hfind := find?_map_update_self s.characters (applyExperienceReward a d) a
          (applyExperienceReward a d).id rfl
          (by rw [applyExperienceReward_id, haid]; exact hA)
        rw [show (applyExperienceReward a d).id = aid from by rw [applyExperienceReward_id, haid]] at hfind ⊢
        rw [hfind, hshape]
    refine ⟨⟨_, rfl⟩, rfl, rfl, rfl, rfl, rfl⟩

/-- Full evaluation of a memory combat in which the attacker wins (the draw
does not exceed the attacker's chance ratio). -/
theorem startCombat_attacker_wins (s : Storage) (aid did : Int) (r : ℚ)
    (a d : Character)
    (hA : s.GetCharacterByID aid = some a) (hD : s.GetCharacterByID did = some d)
    (hr : ¬ (Rat.divInt a.CalculateCombatPower
      (a.CalculateCombatPower + d.CalculateCombatPower) < r)) :
    startCombatMemory s aid did r =
      (.ok { winner := applyExperienceReward a d, loser := d,
             attackerPower := a.CalculateCombatPower,
             defenderPower := d.CalculateCombatPower,
             combatLogText := (applyExperienceReward a d).username ++ " defeated " ++
               d.username ++ "! Experience gained: " ++
               toString (combatExperienceGained d),
             experienceGained := combatExperienceGained d, rewardItems := [] },
       (s.replaceCharacter (applyExperienceReward a d)).AddCombatLog
         { id := 0, attackerId := aid, defenderId := did,
           winnerId := (applyExperienceReward a d).id,
           attackerPower := a.CalculateCombatPower,
           defenderPower := d.CalculateCombatPower,
           combatLogText := (applyExperienceReward a d).username ++ " defeated " ++
             d.username ++ "! Experience gained: " ++
             toString (combatExperienceGained d) }) := by
  have hany : (s.characters.any fun c => c.id == (applyExperienceReward a d).id) = true :=
    List.any_eq_true.mpr
      ⟨a, getCharacterByID_mem hA, beq_iff_eq.mpr (by rw [applyExperienceReward_id])⟩
  simp only [startCombatMemory, hA, hD, if_neg hr]
  rw [show s.UpdateCharacter (applyExperienceReward a d) =
      .ok (s.replaceCharacter (applyExperienceReward a d)) from by
    rw [Storage.UpdateCharacter, if_pos hany]]

/-- Combat power of a base-stat character: `80 + 5 × level`. -/
theorem mkChar_power (id : Int) (u : String) (lv e : Int) :
    (mkChar id u lv e).CalculateCombatPower = 80 + 5 * lv := by
  simp [mkChar, Character.CalculateCombatPower, Character.CalculateTotalStats,
    Character.CalculateBaseStats]
  ring

/-- The reward update of a win of alice (at `(l1, e1)`) over bob (level 1):
+60 experience, with the branch-once `level × 100` level-up check. -/
theorem applyExperienceReward_alice (l1 e1 : Int) :
    applyExperienceReward (mkChar 1 "alice" l1 e1) (mkChar 2 "bob" 1 0) =
      if l1 * 100 ≤ e1 + 60 then mkChar 1 "alice" (l1 + 1) (e1 + 60 - l1 * 100)
      else mkChar 1 "alice" l1 (e1 + 60) := by
  rw [applyExperienceReward]
  simp only [mkChar, combatExperienceGained]
  norm_num

/-- One alice-beats-bob combat preserves the climb invariant, raising alice's
level when the threshold is met. -/
theorem climb_step (s : Storage) (l1 e1 : Int) (h : ClimbInv s l1 e1)
    (hl : 1 ≤ l1) :
    (l1 * 100 ≤ e1 + 60 →
      ClimbInv (startCombatMemory s 1 2 0).2 (l1 + 1) (e1 + 60 - l1 * 100)) ∧
    (e1 + 60 < l1 * 100 →
      ClimbInv (startCombatMemory s 1 2 0).2 l1 (e1 + 60)) := by
  obtain ⟨hreach, hchars, hnext⟩ := h
  have hA : s.GetCharacterByID 1 = some (mkChar 1 "alice" l1 e1) := by
    rw [Storage.GetCharacterByID, hchars]
    rfl
  have hD : s.GetCharacterByID 2 = some (mkChar 2 "bob" 1 0) := by
    rw [Storage.GetCharacterByID, hchars]
    rfl
  have hr : ¬ (Rat.divInt (mkChar 1 "alice" l1 e1).CalculateCombatPower
      ((mkChar 1 "alice" l1 e1).CalculateCombatPower +
        (mkChar 2 "bob" 1 0).CalculateCombatPower) < (0 : ℚ)) := by
    refine not_lt.mpr (Rat.divInt_nonneg ?_ ?_) <;> rw [mkChar_power] <;> try rw [mkChar_power]
    · omega
    · omega
  have heq := startCombat_attacker_wins s 1 2 0 _ _ hA hD hr
  rw [applyExperienceReward_alice] at heq
  have hreach' : Reach (startCombatMemory s 1 2 0).2 :=
    Reach.combat s 1 2 0 hreach
  constructor
  · intro hup
    rw [if_pos hup] at heq
    refine ⟨hreach', ?_, ?_⟩
    · rw [heq]
      show (Storage.replaceCharacter s _).characters = _
      rw [Storage.replaceCharacter, hchars]
      rfl
    · rw [heq]
      exact hnext
  · intro hnoup
    rw [if_neg (by omega)] at heq
    refine ⟨hreach', ?_, ?_⟩
    · rw [heq]
      show (Storage.replaceCharacter s _).characters = _
      rw [Storage.replaceCharacter, hchars]
      rfl
    · rw [heq]
      exact hnext

/-- From any climb state, alice eventually gains one more level (repeated
combats add 60 experience until the threshold is crossed). -/
theorem climb_to_next_level (l1 : Int) (hl : 1 ≤ l1) :
    ∀ e1 : Int, 0 ≤ e1 → (∃ s, ClimbInv s l1 e1) →
      ∃ e1', 0 ≤ e1' ∧ ∃ s, ClimbInv s (l1 + 1) e1' := by
  have H : ∀ m : Nat, ∀ e1 : Int, 0 ≤ e1 → (l1 * 100 - e1).toNat ≤ m →
      (∃ s, ClimbInv s l1 e1) → ∃ e1', 0 ≤ e1' ∧ ∃ s, ClimbInv s (l1 + 1) e1' := by
    intro m
    induction m with
    | zero =>
        intro e1 he1 hm ⟨s, hs⟩
        have hup : l1 * 100 ≤ e1 + 60 := by omega
        exact ⟨e1 + 60 - l1 * 100, by omega,
          _, (climb_step s l1 e1 hs hl).1 hup⟩
    | succ m ih =>
        intro e1 he1 hm ⟨s, hs⟩
        by_cases hup : l1 * 100 ≤ e1 + 60
        · exact ⟨e1 + 60 - l1 * 100, by omega,
            _, (climb_step s l1 e1 hs hl).1 hup⟩
        · exact ih (e1 + 60) (by omega) (by omega)
            ⟨_, (climb_step s l1 e1 hs hl).2 (by omega)⟩
  intro e1 he1 hs
  exact H (l1 * 100 - e1).toNat e1 he1 le_rfl hs

/-- The base climb state satisfies the invariant at `(1, 0)`. -/
theorem climbInv_base : ClimbInv sClimbBase 1 0 := by
  refine ⟨?_, ?_, ?_⟩
  · exact Reach.create _ "bob" none (Reach.create _ "alice" none Reach.init)
  · rfl
  · rfl

/-- Alice reaches every level. -/
theorem climb_all (n : Nat) :
    ∃ l1 e1 s, ClimbInv s l1 e1 ∧ (n : Int) ≤ l1 ∧ 0 ≤ e1 ∧ 1 ≤ l1 := by
  induction n with
  | zero => exact ⟨1, 0, sClimbBase, climbInv_base, by norm_num, le_rfl, le_rfl⟩
  | succ n ih =>
      obtain ⟨l1, e1, s, hinv, hn, he1, hl1⟩ := ih
      obtain ⟨e1', he1', s', hinv'⟩ := climb_to_next_level l1 hl1 e1 he1 ⟨s, hinv⟩
      exact ⟨l1 + 1, e1', s', hinv', by push_cast; omega, he1', by omega⟩

/-- Carol's reward for beating a high-level alice: one branch-once level-up
consuming only `1 × 100` experience. -/
theorem applyExperienceReward_carol (l1 e1 : Int) (hl : 5 ≤ l1) :
    applyExperienceReward (mkChar 3 "carol" 1 0) (mkChar 1 "alice" l1 e1) =
      mkChar 3 "carol" 2 (50 + l1 * 10 - 100) := by
  rw [applyExperienceReward]
  simp only [mkChar, combatExperienceGained]
  rw [if_pos (by omega)]
  simp only [Character.mk.injEq]
  norm_num

/-- C5.  The claimed invariant `experience < level × 1000` fails on the code:
a state is reachable through the defined operations in which a character's
stored experience is at least `level × 1000`.  (Two characters are created;
alice is leveled to 205+ by repeated combats; a fresh character then defeats
alice, receiving `50 + 10 × 205 ≥ 2100` experience against a level-up
normalization of the combat flow that subtracts only `level × 100` once,
leaving a level-2 character with ≥ 2000 experience.) -/
theorem C5_experience_invariant_violated :
    ∃ st, Reach st ∧ ∃ c, st.GetCharacterByID 3 = some c ∧
      c.level * 1000 ≤ c.experience := by
  obtain ⟨l1, e1, s, ⟨hreach, hchars, hnext⟩, hn, he1, hl1⟩ := climb_all 205
  have hl205 : (205 : Int) ≤ l1 := by exact_mod_cast hn
  have hnodup : ¬ ((s.characters.any fun c => c.username == "carol") = true) := by
    rw [hchars]
    simp [mkChar]
  have hcreate : (Storage.CreateCharacter s "carol" none).2 =
      { s with characters := s.characters ++ [mkChar 3 "carol" 1 0],
               nextCharacterId := s.nextCharacterId + 1 } := by
    rw [Storage.CreateCharacter, if_neg hnodup, hnext]
    rfl
  set s4 : Storage :=
    { s with characters := s.characters ++ [mkChar 3 "carol" 1 0],
             nextCharacterId := s.nextCharacterId + 1 } with hs4
  have hA4 : s4.GetCharacterByID 3 = some (mkChar 3 "carol" 1 0) := by
    rw [Storage.GetCharacterByID, hs4]
    show List.find? _ (s.characters ++ [mkChar 3 "carol" 1 0]) = _
    rw [hchars]
    rfl
  have hD4 : s4.GetCharacterByID 1 = some (mkChar 1 "alice" l1 e1) := by
    rw [Storage.GetCharacterByID, hs4]
    show List.find? _ (s.characters ++ [mkChar 3 "carol" 1 0]) = _
    rw [hchars]
    rfl
  have hr : ¬ (Rat.divInt (mkChar 3 "carol" 1 0).CalculateCombatPower
      ((mkChar 3 "carol" 1 0).CalculateCombatPower +
        (mkChar 1 "alice" l1 e1).CalculateCombatPower) < (0 : ℚ)) := by
    refine not_lt.mpr (Rat.divInt_nonneg ?_ ?_) <;> rw [mkChar_power] <;> try rw [mkChar_power]
    · omega
    · omega
  have heq := startCombat_attacker_wins s4 3 1 0 _ _ hA4 hD4 hr
  rw [applyExperienceReward_carol l1 e1 (by omega)] at heq
  refine ⟨(startCombatMemory s4 3 1 0).2, ?_, mkChar 3 "carol" 2 (50 + l1 * 10 - 100), ?_, ?_⟩
  · have : Reach s4 := hcreate ▸ Reach.create s "carol" none hreach
    exact Reach.combat s4 3 1 0 this
  · rw [heq]
    show ((s4.replaceCharacter _).AddCombatLog _).characters.find? _ = _
    rw [Storage.AddCombatLog, Storage.replaceCharacter]
    show (s4.characters.map _).find? _ = _
    rw [hs4]
    show ((s.characters ++ [mkChar 3 "carol" 1 0]).map _).find? _ = _
    rw [hchars]
    rfl
  · show (2 : Int) * 1000 ≤ 50 + l1 * 10 - 100
    omega

/-- C8 counterexample.  Creating a second merchant event while one is active
leaves TWO stored merchant-event records whose active flag is set: the
deactivation only reaches the object aliased by the active-merchant pointer,
never the value copy that was appended to the merchants history. -/
theorem C8_two_active_records_counterexample :
    s8a.activeMerchant ≠ none ∧
    s8b.merchants.countP (fun m => m.isActive) = 2 ∧
    s8b.merchants.length = 2 := by
  refine ⟨?_, rfl, rfl⟩
  decide

/-- C8 (amended).  The storage designates at most one active merchant event:
`CreateMerchant` installs the newly created event (active) as the sole
designated active event — the one every read consults — and appends a copy of
it to the merchants history. -/
theorem C8_designated_active_unique (s : Storage) (ty : String) (now dur : Int) :
    (Storage.CreateMerchant s ty now dur).2.activeMerchant =
      some (Storage.CreateMerchant s ty now dur).1 ∧
    (Storage.CreateMerchant s ty now dur).1.isActive = true ∧
    (Storage.CreateMerchant s ty now dur).2.merchants =
      s.merchants ++ [(Storage.CreateMerchant s ty now dur).1] :=
  ⟨rfl, rfl, rfl⟩

/-- Witness for C3: a fresh level-1 character granted 3000 experience reaches
level 3 with all four stats at 12. -/
theorem C3_add_experience_witness :
    aliceW.AddExperience 3000 =
      ({ aliceW with level := 3, strength := 12, agility := 12,
                     vitality := 12, intelligence := 12 }, true) := by
  have h := (C3_add_experience aliceW 3000).2.2 rfl (by decide) (by decide)
  rw [h]
  rfl

/-- Witness for C4: with two freshly created characters and draw 0, the
attacker wins and earns `50 + 10 × 1` experience. -/
theorem C4_combat_winner_rule_witness :
    ∃ res s', startCombatMemory sClimbBase 1 2 0 = (.ok res, s') ∧
      ((0 : ℚ) ≤ ((mkChar 1 "alice" 1 0).CalculateCombatPower : ℚ) /
          (((mkChar 1 "alice" 1 0).CalculateCombatPower : ℚ) +
            ((mkChar 2 "bob" 1 0).CalculateCombatPower : ℚ)) →
        res.winner.id = 1 ∧ res.loser.id = 2 ∧
        res.experienceGained = 50 + 10 * (mkChar 2 "bob" 1 0).level) ∧
      (((mkChar 1 "alice" 1 0).CalculateCombatPower : ℚ) /
          (((mkChar 1 "alice" 1 0).CalculateCombatPower : ℚ) +
            ((mkChar 2 "bob" 1 0).CalculateCombatPower : ℚ)) < 0 →
        res.winner.id = 2 ∧ res.loser.id = 1 ∧
        res.experienceGained = 50 + 10 * (mkChar 1 "alice" 1 0).level) :=
  C4_combat_winner_rule sClimbBase 1 2 0 (mkChar 1 "alice" 1 0) (mkChar 2 "bob" 1 0)
    rfl rfl (by decide) (by decide)

/-- Witness for C6: the frame property at the witness combat. -/
theorem C6_combat_frame_witness :
    (∀ k, k ≠ resW.winner.id →
      sW.GetCharacterByID k = sClimbBase.GetCharacterByID k) ∧
    resW.loser.id ≠ resW.winner.id ∧
    (∃ w₀, sClimbBase.GetCharacterByID resW.winner.id = some w₀ ∧
      sW.GetCharacterByID resW.winner.id =
        some { w₀ with experience := resW.winner.experience,
                       level := resW.winner.level }) ∧
    (∃ e, sW.combatLogs = e :: sClimbBase.combatLogs) ∧
    sW.items = sClimbBase.items ∧ sW.merchants = sClimbBase.merchants ∧
    sW.activeMerchant = sClimbBase.activeMerchant ∧
    sW.inventories = sClimbBase.inventories ∧
    sW.nextCharacterId = sClimbBase.nextCharacterId :=
  C6_combat_frame sClimbBase 1 2 0 resW sW (by decide)
    (startCombat_attacker_wins sClimbBase 1 2 0 (mkChar 1 "alice" 1 0)
      (mkChar 2 "bob" 1 0) rfl rfl (by decide))

/-- C6 counterexample.  Nothing prevents a combat call in which attacker and
defender are the same character; it succeeds, the "loser" is that same
character, and the loser's persisted record does change (it gains the
winner's experience). -/
theorem C6_self_combat_counterexample :
    (∃ res s', startCombatMemory sAW 1 1 0 = (.ok res, s') ∧
      res.loser.id = 1 ∧ res.winner.id = 1) ∧
    (startCombatMemory sAW 1 1 0).2.GetCharacterByID 1 ≠ sAW.GetCharacterByID 1 := by
  constructor
  · exact ⟨_, _, rfl, rfl, rfl⟩
  · decide

/-- Looking up a replaced row finds the updated row. -/
theorem find?_row_update_self (l : List MerchantEventItemRow)
    (f : MerchantEventItemRow → MerchantEventItemRow) (k : Int)
    (hf : ∀ q, (f q).id = q.id) (row : MerchantEventItemRow)
    (h : l.find? (fun q => q.id == k) = some row) :
    (l.map (fun q => if q.id == k then f q else q)).find? (fun q => q.id == k) =
      some (f row) := by
  induction l with
  | nil => simp at h
  | cons q l ih =>
      by_cases hqk : q.id = k
      · rw [List.find?_cons_of_pos (p := fun q : MerchantEventItemRow => q.id == k) _
          (beq_iff_eq.mpr hqk)] at h
        cases h
        rw [List.map_cons, if_pos (beq_iff_eq.mpr hqk),
          List.find?_cons_of_pos (p := fun q : MerchantEventItemRow => q.id == k) _
            (beq_iff_eq.mpr (by rw [hf]; exact hqk))]
      · have h1 : ¬ ((q.id == k) = true) := by rw [beq_iff_eq]; exact hqk
        rw [List.find?_cons_of_neg (p := fun q : MerchantEventItemRow => q.id == k) _ h1] at h
        rw [List.map_cons, if_neg h1,
          List.find?_cons_of_neg (p := fun q : MerchantEventItemRow => q.id == k) _ h1, ih h]

/-- `AddItemToCharacter` leaves the merchant line items untouched. -/
theorem addItemToCharacter_rows (db : DBState) (cid iid qty : Int) :
    (db.AddItemToCharacter cid iid qty).merchantEventItems = db.merchantEventItems := by
  rw [DBState.AddItemToCharacter]
  split <;> rfl

/-- The successful purchase bumps exactly the bought line item's purchased
count. -/
theorem purchase_rows (db : DBState) (cid lid : Int) (row : MerchantEventItemRow)
    (character : Character)
    (hrow : db.getMerchantEventItem lid = some row)
    (hnotout : ¬ (row.stock ≤ row.purchased))
    (hchar : db.getCharacter cid = some character)
    (hbal : ¬ (character.channelPointsSpent + row.priceChannelPoints >
      character.channelPointsSpent + 1000)) :
    (PurchaseItemDB db cid lid).2.merchantEventItems =
      db.merchantEventItems.map (fun q => if q.id == lid then bumpPurchased q else q) := by
  simp only [PurchaseItemDB, hrow, if_neg hnotout, hchar, if_neg hbal,
    DBState.AddItemToCharacter, bumpPurchased]
  split <;> rfl

/-- C9 (amended, relational flow).  `PurchaseItem` checks `purchased < stock`
and rejects exhausted line items with the out-of-stock error and no state
change; a purchase of the last unit (with an existing buyer and a price
within the placeholder balance check) succeeds and raises the purchased count
to the stock, after which the next attempt on the same line item fails with
the out-of-stock error. -/
theorem C9_purchase_stock (db : DBState) (cid lid : Int)
    (row : MerchantEventItemRow)
    (hrow : db.getMerchantEventItem lid = some row) :
    (row.stock ≤ row.purchased →
      PurchaseItemDB db cid lid = (.error "item is out of stock", db)) ∧
    (∀ character, row.purchased = row.stock - 1 →
      db.getCharacter cid = some character →
      row.priceChannelPoints ≤ 1000 →
      (PurchaseItemDB db cid lid).1 = .ok () ∧
      (∃ row', (PurchaseItemDB db cid lid).2.getMerchantEventItem lid = some row' ∧
        row'.purchased = row.stock) ∧
      (PurchaseItemDB (PurchaseItemDB db cid lid).2 cid lid).1 =
        .error "item is out of stock") := by
  constructor
  · intro hout
    simp only [PurchaseItemDB, hrow, if_pos hout]
  · intro character hlast hchar hprice
    have hnotout : ¬ (row.stock ≤ row.purchased) := by omega
    have hbal : ¬ (character.channelPointsSpent + row.priceChannelPoints >
        character.channelPointsSpent + 1000) := by omega
    have hrows := purchase_rows db cid lid row character hrow hnotout hchar hbal
    have hrow2 : (PurchaseItemDB db cid lid).2.getMerchantEventItem lid =
        some (bumpPurchased row) := by
      rw [DBState.getMerchantEventItem, hrows]
      exact find?_row_update_self db.merchantEventItems bumpPurchased lid
        (fun q => rfl) row hrow
    refine ⟨?_, ⟨bumpPurchased row, hrow2, by show row.purchased + 1 = row.stock; omega⟩, ?_⟩
    · simp only [PurchaseItemDB, hrow, if_neg hnotout, hchar, if_neg hbal]
    · generalize hdb : (PurchaseItemDB db cid lid).2 = db2 at hrow2
      simp only [PurchaseItemDB, hrow2,
        if_pos (show (bumpPurchased row).stock ≤ (bumpPurchased row).purchased from by
          show row.stock ≤ row.purchased + 1; omega)]

/-- Witness for C9 (amended): buying the last unit succeeds and exhausts the
stock; the next attempt reports out of stock. -/
theorem C9_purchase_stock_witness :
    (PurchaseItemDB dbW 1 1).1 = .ok () ∧
    (∃ row', (PurchaseItemDB dbW 1 1).2.getMerchantEventItem 1 = some row' ∧
      row'.purchased = 2) ∧
    (PurchaseItemDB (PurchaseItemDB dbW 1 1).2 1 1).1 =
      .error "item is out of stock" :=
  (C9_purchase_stock dbW 1 1
      { id := 1, itemId := 7, priceChannelPoints := 100, stock := 2, purchased := 1 }
      rfl).2
    (mkChar 1 "alice" 1 0) (by norm_num) rfl (by norm_num)

/-- C9 counterexample.  In the in-memory flow `PurchaseItem` performs no
stock bookkeeping at all: buying the same line item twice in a row succeeds
both times (no stock-exhausted outcome exists). -/
theorem C9_memory_no_stock_counterexample :
    (PurchaseItemService s9 1 1).1 = .ok () ∧
    (PurchaseItemService (PurchaseItemService s9 1 1).2 1 1).1 = .ok () := by
  constructor <;> rfl

/-- The stat upgrade never touches the equipment aggregate. -/
theorem upgradeStat_equipment (c : Character) (st : String) (pts : Int) :
    (c.UpgradeStat st pts).1.equipment = c.equipment := by
  simp only [Character.UpgradeStat]
  split
  · rfl
  split
  · rfl
  split
  · rfl
  rename_i c'' heq
  revert heq
  split <;> intro heq <;> (cases heq <;> rfl)

/-- Setting an equipment slot id never touches the equipment aggregate. -/
theorem equipSlot_equipment (c : Character) (item : Item) (c' : Character)
    (h : equipSlot c item = some c') : c'.equipment = c.equipment := by
  revert h
  rw [equipSlot]
  split <;> intro h <;> (cases h <;> rfl)

/-- Clearing an equipment slot id never touches the equipment aggregate. -/
theorem unequipSlot_equipment (c : Character) (slt : String) (c' : Character)
    (h : unequipSlot c slt = some c') : c'.equipment = c.equipment := by
  by_cases h1 : slt = "boots"
  · subst h1; injection h with h2; rw [← h2]
  by_cases h2 : slt = "pants"
  · subst h2; injection h with h3; rw [← h3]
  by_cases h3 : slt = "armor"
  · subst h3; injection h with h4; rw [← h4]
  by_cases h4 : slt = "helmet"
  · subst h4; injection h with h5; rw [← h5]
  by_cases h5 : slt = "ring"
  · subst h5; injection h with h6; rw [← h6]
  by_cases h6 : slt = "chain"
  · subst h6; injection h with h7; rw [← h7]
  exact absurd h (by simp [unequipSlot, h1, h2, h3, h4, h5, h6])

/-- The combat reward never touches the equipment aggregate. -/
theorem applyExperienceReward_equipment (w l : Character) :
    (applyExperienceReward w l).equipment = w.equipment := by
  obtain ⟨e, lv, h⟩ := applyExperienceReward_shape w l
  rw [h]

/-- A member of the character table after a replace is an old member or the
replacement. -/
theorem mem_replaceCharacter {s : Storage} {w c : Character}
    (hc : c ∈ (s.replaceCharacter w).characters) : c ∈ s.characters ∨ c = w := by
  rw [Storage.replaceCharacter] at hc
  rcases List.mem_map.mp hc with ⟨x, hx, hxe⟩
  by_cases hid : (x.id == w.id) = true
  · right
    rw [← hxe, if_pos hid]
  · left
    rw [← hxe, if_neg hid]
    exact hx

/-- The characters after a stat upgrade: unchanged, or one stored character
replaced by its pure upgrade. -/
theorem upgradeCharacterStat_characters (s : Storage) (cid : Int) (st : String)
    (pts : Int) :
    (UpgradeCharacterStat s cid st pts).2 = s ∨
    ∃ c0, s.GetCharacterByID cid = some c0 ∧
      (UpgradeCharacterStat s cid st pts).2 =
        s.replaceCharacter (c0.UpgradeStat st pts).1 := by
  rw [UpgradeCharacterStat]
  cases hl : s.GetCharacterByID cid with
  | none => exact Or.inl rfl
  | some c0 =>
      dsimp only
      rcases hup : c0.UpgradeStat st pts with ⟨c', ok⟩
      cases ok with
      | false => exact Or.inl rfl
      | true =>
          dsimp only
          by_cases hany : (s.characters.any fun c => c.id == c'.id) = true
          · rw [show s.UpdateCharacter c' = .ok (s.replaceCharacter c') from by
              rw [Storage.UpdateCharacter, if_pos hany]]
            refine Or.inr ⟨c0, rfl, ?_⟩
            rw [hup]
            show (match (s.replaceCharacter c').GetCharacterByID cid with
              | some c2 => (Except.ok c2, s.replaceCharacter c')
              | none => (Except.error "character not found", s.replaceCharacter c')).2 =
              s.replaceCharacter c'
            cases hre : (s.replaceCharacter c').GetCharacterByID cid <;> rfl
          · rw [show s.UpdateCharacter c' = .error "character not found" from by
              rw [Storage.UpdateCharacter, if_neg hany]]
            exact Or.inl rfl

/-- The characters after an equip: unchanged, or one stored character with a
slot id set. -/
theorem equipItem_characters (s : Storage) (cid iid : Int) :
    (EquipItem s cid iid).2 = s ∨
    ∃ c0 item c', s.GetCharacterByID cid = some c0 ∧ equipSlot c0 item = some c' ∧
      (EquipItem s cid iid).2 = s.replaceCharacter c' := by
  rw [EquipItem]
  cases hit : s.GetItemByID iid with
  | none => exact Or.inl rfl
  | some item =>
  cases hl : s.GetCharacterByID cid with
  | none => exact Or.inl rfl
  | some c0 =>
  dsimp only
  cases hsl : equipSlot c0 item with
  | none => exact Or.inl rfl
  | some c' =>
      dsimp only
      by_cases hany : (s.characters.any fun c => c.id == c'.id) = true
      · rw [show s.UpdateCharacter c' = .ok (s.replaceCharacter c') from by
          rw [Storage.UpdateCharacter, if_pos hany]]
        exact Or.inr ⟨c0, item, c', rfl, hsl, rfl⟩
      · rw [show s.UpdateCharacter c' = .error "character not found" from by
          rw [Storage.UpdateCharacter, if_neg hany]]
        exact Or.inl rfl

/-- The characters after an unequip: unchanged, or one stored character with a
slot id cleared. -/
theorem unequipItem_characters (s : Storage) (cid : Int) (slt : String) :
    (UnequipItem s cid slt).2 = s ∨
    ∃ c0 c', s.GetCharacterByID cid = some c0 ∧ unequipSlot c0 slt = some c' ∧
      (UnequipItem s cid slt).2 = s.replaceCharacter c' := by
  rw [UnequipItem]
  cases hl : s.GetCharacterByID cid with
  | none => exact Or.inl rfl
  | some c0 =>
  dsimp only
  cases hsl : unequipSlot c0 slt with
  | none => exact Or.inl rfl
  | some c' =>
      dsimp only
      by_cases hany : (s.characters.any fun c => c.id == c'.id) = true
      · rw [show s.UpdateCharacter c' = .ok (s.replaceCharacter c') from by
          rw [Storage.UpdateCharacter, if_pos hany]]
        exact Or.inr ⟨c0, c', rfl, hsl, rfl⟩
      · rw [show s.UpdateCharacter c' = .error "character not found" from by
          rw [Storage.UpdateCharacter, if_neg hany]]
        exact Or.inl rfl

/-- The characters after a combat: unchanged, or one stored participant
replaced by its rewarded version. -/
theorem startCombatMemory_characters (s : Storage) (aid did : Int) (r : ℚ) :
    (startCombatMemory s aid did r).2.characters = s.characters ∨
    ∃ a d w, s.GetCharacterByID aid = some a ∧ s.GetCharacterByID did = some d ∧
      (w = applyExperienceReward a d ∨ w = applyExperienceReward d a) ∧
      (startCombatMemory s aid did r).2.characters =
        (s.replaceCharacter w).characters := by
  rw [startCombatMemory]
  cases hA : s.GetCharacterByID aid with
  | none => exact Or.inl rfl
  | some a =>
  cases hD : s.GetCharacterByID did with
  | none => exact Or.inl rfl
  | some d =>
      dsimp only
      by_cases hc : Rat.divInt a.CalculateCombatPower
          (a.CalculateCombatPower + d.CalculateCombatPower) < r
      · rw [if_pos hc, if_pos hc]
        by_cases hany :
            (s.characters.any fun c => c.id == (applyExperienceReward d a).id) = true
        · rw [show s.UpdateCharacter (applyExperienceReward d a) =
              .ok (s.replaceCharacter (applyExperienceReward d a)) from by
            rw [Storage.UpdateCharacter, if_pos hany]]
          exact Or.inr ⟨a, d, _, rfl, rfl, Or.inr rfl, rfl⟩
        · rw [show s.UpdateCharacter (applyExperienceReward d a) =
              .error "character not found" from by
            rw [Storage.UpdateCharacter, if_neg hany]]
          exact Or.inl rfl
      · rw [if_neg hc, if_neg hc]
        by_cases hany :
            (s.characters.any fun c => c.id == (applyExperienceReward a d).id) = true
        · rw [show s.UpdateCharacter (applyExperienceReward a d) =
              .ok (s.replaceCharacter (applyExperienceReward a d)) from by
            rw [Storage.UpdateCharacter, if_pos hany]]
          exact Or.inr ⟨a, d, _, rfl, rfl, Or.inl rfl, rfl⟩
        · rw [show s.UpdateCharacter (applyExperienceReward a d) =
              .error "character not found" from by
            rw [Storage.UpdateCharacter, if_neg hany]]
          exact Or.inl rfl

/-- The characters after a creation: unchanged, or with one fresh character
(no equipment) appended. -/
theorem createCharacter_characters (s : Storage) (u : String)
    (tid : Option String) :
    (Storage.CreateCharacter s u tid).2.characters = s.characters ∨
    ∃ c, c.equipment = none ∧
      (Storage.CreateCharacter s u tid).2.characters = s.characters ++ [c] := by
  rw [Storage.CreateCharacter]
  split
  · exact Or.inl rfl
  · exact Or.inr ⟨_, rfl, rfl⟩

/-- Every stored character of a reachable state carries no equipment
aggregate (the in-memory flow never populates it). -/
theorem reach_equipment_none {s : Storage} (h : Reach s) :
    ∀ c ∈ s.characters, c.equipment = none := by
  induction h with
  | init => intro c hc; simp [initialStorage] at hc
  | create s u tid hs ih =>
      intro c hc
      rcases createCharacter_characters s u tid with he | ⟨c0, hc0, he⟩ <;> rw [he] at hc
      · exact ih c hc
      · rcases List.mem_append.mp hc with hm | hm
        · exact ih c hm
        · simp at hm; rw [hm]; exact hc0
  | upgrade s cid st pts hs ih =>
      intro c hc
      rcases upgradeCharacterStat_characters s cid st pts with he | ⟨c0, hc0, he⟩ <;>
        rw [he] at hc
      · exact ih c hc
      · rcases mem_replaceCharacter hc with hm | hm
        · exact ih c hm
        · rw [hm, upgradeStat_equipment]
          exact ih c0 (getCharacterByID_mem hc0)
  | equip s cid iid hs ih =>
      intro c hc
      rcases equipItem_characters s cid iid with he | ⟨c0, item, c', hc0, hsl, he⟩ <;>
        rw [he] at hc
      · exact ih c hc
      · rcases mem_replaceCharacter hc with hm | hm
        · exact ih c hm
        · rw [hm, equipSlot_equipment c0 item c' hsl]
          exact ih c0 (getCharacterByID_mem hc0)
  | unequip s cid slt hs ih =>
      intro c hc
      rcases unequipItem_characters s cid slt with he | ⟨c0, c', hc0, hsl, he⟩ <;>
        rw [he] at hc
      · exact ih c hc
      · rcases mem_replaceCharacter hc with hm | hm
        · exact ih c hm
        · rw [hm, unequipSlot_equipment c0 slt c' hsl]
          exact ih c0 (getCharacterByID_mem hc0)
  | combat s aid did r hs ih =>
      intro c hc
      rcases startCombatMemory_characters s aid did r with he | ⟨a, d, w, hA, hD, hw, he⟩ <;>
        rw [he] at hc
      · exact ih c hc
      · rcases mem_replaceCharacter hc with hm | hm
        · exact ih c hm
        · rcases hw with hw | hw <;> rw [hm, hw, applyExperienceReward_equipment]
          · exact ih a (getCharacterByID_mem hA)
          · exact ih d (getCharacterByID_mem hD)

/-- A character without an equipment aggregate has base-stat combat power. -/
theorem power_of_equipment_none (c : Character) (h : c.equipment = none) :
    c.CalculateCombatPower =
      3 * c.strength + 2 * c.agility + 2 * c.vitality + c.intelligence +
        5 * c.level := by
  simp only [Character.CalculateCombatPower, Character.CalculateTotalStats, h,
    Character.CalculateBaseStats]
  ring

/-- C10 (amended).  The in-memory `GetAllCharacters` returns the characters in
storage order (no sorting), each with base-stat-only combat power (reachable
in-memory characters never carry an equipment aggregate); the relational
`GetAllCharacters` returns the scanned rows in leaderboard order — level
descending, then experience descending — each with base-stat-only combat
power (the query performs no equipment join). -/
theorem C10_list_characters (s : Storage) (hs : Reach s) (rows : List Character) :
    Storage.GetAllCharacters s = s.characters ∧
    (∀ c ∈ Storage.GetAllCharacters s, c.CalculateCombatPower =
      3 * c.strength + 2 * c.agility + 2 * c.vitality + c.intelligence +
        5 * c.level) ∧
    List.Sorted leaderboardLe (GetAllCharactersDB rows) ∧
    (GetAllCharactersDB rows).Perm (rows.map scanAllCharactersRow) ∧
    (∀ c ∈ GetAllCharactersDB rows, c.CalculateCombatPower =
      3 * c.strength + 2 * c.agility + 2 * c.vitality + c.intelligence +
        5 * c.level) := by
  refine ⟨rfl, ?_, ?_, ?_, ?_⟩
  · intro c hc
    exact power_of_equipment_none c (reach_equipment_none hs c hc)
  · exact List.sorted_insertionSort leaderboardLe (rows.map scanAllCharactersRow)
  · exact List.perm_insertionSort leaderboardLe (rows.map scanAllCharactersRow)
  · intro c hc
    rw [GetAllCharactersDB, List.mem_insertionSort] at hc
    rcases List.mem_map.mp hc with ⟨c0, _, hc0⟩
    exact power_of_equipment_none c (by rw [← hc0]; rfl)

/-- Witness for C10 (amended): instantiated at a reachable two-character state
and a two-row table. -/
theorem C10_list_characters_witness :
    Storage.GetAllCharacters sClimbBase = sClimbBase.characters ∧
    (∀ c ∈ Storage.GetAllCharacters sClimbBase, c.CalculateCombatPower =
      3 * c.strength + 2 * c.agility + 2 * c.vitality + c.intelligence +
        5 * c.level) ∧
    List.Sorted leaderboardLe
      (GetAllCharactersDB [mkChar 1 "alice" 1 0, mkChar 2 "bob" 3 50]) ∧
    (GetAllCharactersDB [mkChar 1 "alice" 1 0, mkChar 2 "bob" 3 50]).Perm
      ([mkChar 1 "alice" 1 0, mkChar 2 "bob" 3 50].map scanAllCharactersRow) ∧
    (∀ c ∈ GetAllCharactersDB [mkChar 1 "alice" 1 0, mkChar 2 "bob" 3 50],
      c.CalculateCombatPower =
        3 * c.strength + 2 * c.agility + 2 * c.vitality + c.intelligence +
          5 * c.level) :=
  C10_list_characters sClimbBase
    (Reach.create _ "bob" none (Reach.create _ "alice" none Reach.init))
    [mkChar 1 "alice" 1 0, mkChar 2 "bob" 3 50]

/-- C10 counterexample.  The in-memory `GetAllCharacters` does not return
leaderboard order: in the reachable state `s10` it returns alice (experience
0) before bob (experience 60) at equal levels, violating "experience
descending". -/
theorem C10_memory_unsorted_counterexample :
    Reach s10 ∧
    Storage.GetAllCharacters s10 = [mkChar 1 "alice" 1 0, mkChar 2 "bob" 1 60] ∧
    ¬ List.Sorted leaderboardLe (Storage.GetAllCharacters s10) := by
  refine ⟨?_, ?_, ?_⟩
  · exact Reach.combat _ 2 1 0
      (Reach.create _ "bob" none (Reach.create _ "alice" none Reach.init))
  · rfl
  · intro h
    have h1 := List.rel_of_sorted_cons (by
      rw [show Storage.GetAllCharacters s10 =
        [mkChar 1 "alice" 1 0, mkChar 2 "bob" 1 60] from rfl] at h
      exact h) (mkChar 2 "bob" 1 60) (by simp)
    rcases h1 with h1 | ⟨_, h1⟩
    · exact absurd h1 (by decide)
    · exact absurd h1 (by decide)
